import Mathlib

/-!
Verification of the PTO tracker (`src/main.py`, class `PTOManager`).

The Python program keeps a document `self.data` with fields
`yearly_pto_hours`, `used_pto_hours` and `pto_requests`, mutates it through
the methods `set_yearly_pto_hours`, `add_pto_request`, `edit_pto_request`
and `remove_pto_request`, and persists it as JSON via `_save_data` /
`_load_data`.  Dates are validated with `strptime("%m-%d-%y")` and
normalised to ISO `"%Y-%m-%d"` by `_validate_date`; the reverse direction
is `_format_date_for_display`.

Embedding choices:
* machine integers are `Int`/`Nat` (the program only ever adds and
  subtracts small whole hour counts);
* `strptime`'s regular-expression classes for `%m`, `%d` are the explicit
  ASCII alternations `1[0-2]|0[1-9]|[1-9]` and `3[01]|[12]\d|0[1-9]|[1-9]`
  and `%y` is two digits, matched against the whole string; `\d` is
  modelled as an ASCII digit;
* `list.sort(key=lambda x: x["date"])` is a stable ascending sort by the
  date string; a stable sort is extensionally unique, so it is modelled by
  the structural `List.insertionSort` (also stable) over the code-point
  lexicographic order that Python uses on `str`;
* each mutating method returns the new document, the error it reported (if
  any, as printed by the method), and whether `_save_data` ran;
* the JSON file is modelled at the level of parsed JSON values: a missing
  file, an unparseable file, and a file holding a JSON value.
-/

/-! ### Digits and tokens -/

/-- An ASCII digit, the only characters `strptime`'s field patterns match. -/
def isDigitC (c : Char) : Bool := 48 ≤ c.toNat && c.toNat ≤ 57

/-- The ASCII digit character of `n % 10`. -/
def digitChar (n : Nat) : Char := Char.ofNat (48 + n % 10)

/-- Numeric value of a digit token, as `int()` computes it. -/
def tokVal (cs : List Char) : Nat := cs.foldl (fun a c => 10 * a + (c.toNat - 48)) 0

/-- Two-digit zero-padded rendering, as `strftime`'s `%m`, `%d`, `%y` emit. -/
def pad2 (n : Nat) : List Char := [digitChar (n / 10), digitChar n]

/-- Four-digit zero-padded rendering, as `strftime`'s `%Y` emits for years up to 9999. -/
def pad4 (n : Nat) : List Char :=
  [digitChar (n / 1000), digitChar (n / 100), digitChar (n / 10), digitChar n]

/-- Split a character list at every `'-'`; the format strings `"%m-%d-%y"`
and `"%Y-%m-%d"` force exactly this decomposition of a matching string. -/
def splitDash : List Char → List (List Char)
  | [] => [[]]
  | c :: cs =>
    if c = '-' then [] :: splitDash cs
    else
      match splitDash cs with
      | [] => [[c]]
      | t :: ts => (c :: t) :: ts

/-- A field of one to `maxLen` digits (the shape of the `%m` and `%d` patterns;
their numeric range is checked separately). -/
def isNumTok (cs : List Char) (maxLen : Nat) : Bool :=
  decide (1 ≤ cs.length) && decide (cs.length ≤ maxLen) && cs.all isDigitC

/-! ### Calendar rules used by `datetime` -/

/-- Gregorian leap-year rule. -/
def isLeap (y : Nat) : Bool := y % 4 == 0 && (decide (y % 100 ≠ 0) || y % 400 == 0)

/-- Days in a month, as `datetime` validates the day field. -/
def daysInMonth (y m : Nat) : Nat :=
  if m = 2 then (if isLeap y then 29 else 28)
  else if m = 4 ∨ m = 6 ∨ m = 9 ∨ m = 11 then 30 else 31

/-- `strptime`'s `%y` pivot: 00–68 means 2000–2068, 69–99 means 1969–1999. -/
def pyYear (y : Nat) : Nat := if y ≤ 68 then 2000 + y else 1900 + y

/-! ### `_validate_date` and `_format_date_for_display` -/

/-- `PTOManager._validate_date`: parse `MM-DD-YY` (month, day, two-digit
year), reject impossible calendar dates, and return the ISO form
`YYYY-MM-DD`; `None` on anything unparseable. -/
def _validate_date (s : String) : Option String :=
  match splitDash s.data with
  | [mT, dT, yT] =>
    if isNumTok mT 2 && isNumTok dT 2 && (decide (yT.length = 2) && yT.all isDigitC) then
      let m := tokVal mT
      let d := tokVal dT
      let y := tokVal yT
      if 1 ≤ m ∧ m ≤ 12 ∧ 1 ≤ d ∧ d ≤ 31 ∧ d ≤ daysInMonth (pyYear y) m then
        some (String.mk (pad4 (pyYear y) ++ '-' :: (pad2 m ++ '-' :: pad2 d)))
      else none
    else none
  | _ => none

/-- `PTOManager._format_date_for_display`: parse ISO `YYYY-MM-DD` and render
`MM-DD-YY`; on any parse error the input is returned unchanged. -/
def _format_date_for_display (s : String) : String :=
  match splitDash s.data with
  | [yT, mT, dT] =>
    if (decide (yT.length = 4) && yT.all isDigitC) && isNumTok mT 2 && isNumTok dT 2 then
      let y := tokVal yT
      let m := tokVal mT
      let d := tokVal dT
      if 1 ≤ y ∧ 1 ≤ m ∧ m ≤ 12 ∧ 1 ≤ d ∧ d ≤ 31 ∧ d ≤ daysInMonth y m then
        String.mk (pad2 m ++ '-' :: (pad2 d ++ '-' :: pad2 (y % 100)))
      else s
    else s
  | _ => s

/-! ### Data model -/

/-- One entry of `data["pto_requests"]`. -/
structure Request where
  date : String
  is_half_day : Bool
  hours : Int
  note : String
deriving DecidableEq, Repr

/-- The document `self.data`. -/
structure PTOData where
  yearly_pto_hours : Int
  used_pto_hours : Int
  pto_requests : List Request
deriving DecidableEq, Repr

/-- The default structure `_load_data` builds (lines 22–26). -/
def defaultData : PTOData := ⟨0, 0, []⟩

/-! ### Python string order and the sort by date -/

/-- Three-way code-point lexicographic comparison, Python's `str` order. -/
def cmpL : List Char → List Char → Ordering
  | [], [] => .eq
  | [], _ :: _ => .lt
  | _ :: _, [] => .gt
  | a :: as, b :: bs => if a < b then .lt else if b < a then .gt else cmpL as bs

/-- Non-strict order on requests by date key, the order
`pto_requests.sort(key=lambda x: x["date"])` establishes. -/
def reqLE (a b : Request) : Prop := cmpL a.date.data b.date.data ≠ .gt

instance : DecidableRel reqLE := fun a b => inferInstanceAs (Decidable (_ ≠ _))

/-- `list.sort` is stable; a stable ascending sort is extensionally unique,
so insertion sort computes exactly its result. -/
def sortReqs (l : List Request) : List Request := List.insertionSort reqLE l

/-! ### The mutating operations -/

/-- The error kinds the methods report (by printing a message and
returning without saving). -/
inductive PTOError where
  | invalidDate
  | duplicateDate
  | notFound
deriving DecidableEq, Repr

/-- Result of one method call: the document afterwards, the reported error
if any, and whether `_save_data` was called. -/
structure OpResult where
  data : PTOData
  err : Option PTOError
  saved : Bool
deriving DecidableEq, Repr

/-- `PTOManager.set_yearly_pto_hours`. -/
def set_yearly_pto_hours (st : PTOData) (hours : Int) : OpResult :=
  ⟨{ st with yearly_pto_hours := hours }, none, true⟩

/-- The duplicate scan of `add_pto_request` (lines 66–70). -/
def hasDate (reqs : List Request) (d : String) : Bool :=
  reqs.any (fun r => r.date = d)

/-- `PTOManager.add_pto_request`.  The `normalized = ""` test mirrors
Python's falsiness check `if not normalized_date` (an empty string is
falsy; `_validate_date` in fact never returns one). -/
def add_pto_request (st : PTOData) (date : String) (is_half_day : Bool) (note : String) :
    OpResult :=
  match _validate_date date with
  | none => ⟨st, some .invalidDate, false⟩
  | some normalized =>
    if normalized = "" then ⟨st, some .invalidDate, false⟩
    else if hasDate st.pto_requests normalized then ⟨st, some .duplicateDate, false⟩
    else
      let hours : Int := if is_half_day then 4 else 8
      let newReq : Request := ⟨normalized, is_half_day, hours, note⟩
      ⟨{ st with pto_requests := sortReqs (st.pto_requests ++ [newReq]),
                 used_pto_hours := st.used_pto_hours + hours }, none, true⟩

/-- The in-place field updates of `edit_pto_request` (lines 116–124). -/
def updateReq (r : Request) (new_date : Option String) (is_half_day : Option Bool)
    (note : Option String) : Request :=
  let r1 := match new_date with
    | some d => { r with date := d }
    | none => r
  let r2 := match is_half_day with
    | some b => { r1 with is_half_day := b, hours := if b then 4 else 8 }
    | none => r1
  match note with
  | some n => { r2 with note := n }
  | none => r2

/-- The lookup loop of `edit_pto_request` (lines 111–135): update the first
request whose date matches, returning the new list, the hours before the
update, and the hours after it. -/
def editScan (reqs : List Request) (target : String) (new_date : Option String)
    (is_half_day : Option Bool) (note : Option String) :
    Option (List Request × Int × Int) :=
  match reqs with
  | [] => none
  | r :: rest =>
    if r.date = target then
      let r2 := updateReq r new_date is_half_day note
      some (r2 :: rest, r.hours, r2.hours)
    else
      match editScan rest target new_date is_half_day note with
      | none => none
      | some (l2, oh, nh) => some (r :: l2, oh, nh)

/-- `PTOManager.edit_pto_request`.  A `new_date` of `""` is falsy in
Python, so `if new_date:` skips it and the date is left unchanged. -/
def edit_pto_request (st : PTOData) (date : String) (new_date : Option String)
    (is_half_day : Option Bool) (note : Option String) : OpResult :=
  match _validate_date date with
  | none => ⟨st, some .invalidDate, false⟩
  | some normalized =>
    if normalized = "" then ⟨st, some .invalidDate, false⟩
    else
      match (match new_date with
             | none => Except.ok (none : Option String)
             | some nd =>
               if nd = "" then Except.ok none
               else match _validate_date nd with
                 | none => Except.error PTOError.invalidDate
                 | some x => if x = "" then Except.error PTOError.invalidDate
                             else Except.ok (some x)) with
      | .error e => ⟨st, some e, false⟩
      | .ok normalized_new =>
        match editScan st.pto_requests normalized normalized_new is_half_day note with
        | none => ⟨st, some .notFound, false⟩
        | some (l2, old_hours, new_hours) =>
          ⟨{ st with pto_requests := sortReqs l2,
                     used_pto_hours := st.used_pto_hours - old_hours + new_hours },
           none, true⟩

/-- The lookup loop of `remove_pto_request` (lines 148–159): drop the first
request whose date matches, returning the new list and its hours. -/
def removeScan (reqs : List Request) (target : String) : Option (List Request × Int) :=
  match reqs with
  | [] => none
  | r :: rest =>
    if r.date = target then some (rest, r.hours)
    else
      match removeScan rest target with
      | none => none
      | some (l2, h) => some (r :: l2, h)

/-- `PTOManager.remove_pto_request`.  Note the code does not re-sort here. -/
def remove_pto_request (st : PTOData) (date : String) : OpResult :=
  match _validate_date date with
  | none => ⟨st, some .invalidDate, false⟩
  | some normalized =>
    if normalized = "" then ⟨st, some .invalidDate, false⟩
    else
      match removeScan st.pto_requests normalized with
      | none => ⟨st, some .notFound, false⟩
      | some (l2, h) =>
        ⟨{ st with pto_requests := l2, used_pto_hours := st.used_pto_hours - h },
         none, true⟩

/-! ### Operation sequences -/

/-- One user-level mutation of the request list. -/
inductive PTOOp where
  | add (date : String) (is_half_day : Bool) (note : String)
  | edit (date : String) (new_date : Option String) (is_half_day : Option Bool)
      (note : Option String)
  | remove (date : String)

/-- Apply one operation, keeping the resulting document. -/
def applyOp (st : PTOData) : PTOOp → PTOData
  | .add d h n => (add_pto_request st d h n).data
  | .edit d nd h n => (edit_pto_request st d nd h n).data
  | .remove d => (remove_pto_request st d).data

/-- Apply a sequence of operations in order. -/
def applyOps (st : PTOData) (ops : List PTOOp) : PTOData := ops.foldl applyOp st

/-- Sum of the `hours` fields of a request list. -/
def sumHours (l : List Request) : Int := (l.map Request.hours).sum

/-! ### Persistence -/

/-- Parsed JSON values, the content of `pto_data.json`. -/
inductive Json where
  | null : Json
  | bool : Bool → Json
  | int : Int → Json
  | str : String → Json
  | arr : List Json → Json
  | obj : List (String × Json) → Json

/-- The dict built for a request (lines 75–80), as `json.dump` writes it. -/
def encodeReq (r : Request) : Json :=
  .obj [("date", .str r.date), ("is_half_day", .bool r.is_half_day),
        ("hours", .int r.hours), ("note", .str r.note)]

/-- The whole document as `json.dump` writes it. -/
def encode (st : PTOData) : Json :=
  .obj [("yearly_pto_hours", .int st.yearly_pto_hours),
        ("used_pto_hours", .int st.used_pto_hours),
        ("pto_requests", .arr (st.pto_requests.map encodeReq))]

/-- `PTOManager._save_data`: the JSON value written to the file. -/
def _save_data (st : PTOData) : Json := encode st

/-- Key lookup in a JSON object, as `data["key"]` reads the parsed dict. -/
def getField (fs : List (String × Json)) (k : String) : Option Json :=
  match fs with
  | [] => none
  | (k2, v) :: rest => if k2 = k then some v else getField rest k

/-- Read one request back from its JSON value. -/
def decodeReq (j : Json) : Option Request :=
  match j with
  | .obj fs =>
    match getField fs "date", getField fs "is_half_day",
          getField fs "hours", getField fs "note" with
    | some (.str d), some (.bool b), some (.int h), some (.str n) => some ⟨d, b, h, n⟩
    | _, _, _, _ => none
  | _ => none

/-- Read a request list back from JSON values. -/
def decodeReqs (js : List Json) : Option (List Request) :=
  match js with
  | [] => some []
  | j :: rest =>
    match decodeReq j, decodeReqs rest with
    | some r, some rs => some (r :: rs)
    | _, _ => none

/-- Read a whole document back from a JSON value. -/
def decode (j : Json) : Option PTOData :=
  match j with
  | .obj fs =>
    match getField fs "yearly_pto_hours", getField fs "used_pto_hours",
          getField fs "pto_requests" with
    | some (.int y), some (.int u), some (.arr js) =>
      match decodeReqs js with
      | some rs => some ⟨y, u, rs⟩
      | none => none
    | _, _, _ => none
  | _ => none

/-- The storage file as `_load_data` can find it: absent; existing but
failing `open()`/`read()` with an `OSError` (e.g. permissions); existing
but holding bytes that are not valid UTF-8, so that reading raises a
`UnicodeDecodeError`; decodable text that is not valid JSON
(`json.JSONDecodeError`); or a file holding a JSON value. -/
inductive FileState where
  | missing : FileState
  | unreadable : FileState
  | undecodable : FileState
  | corrupt : String → FileState
  | content : Json → FileState

/-- An exception that propagates out of `_load_data` uncaught: the
`try/except` at lines 15–19 catches only `json.JSONDecodeError`, so an
`OSError` from `open()` or a `UnicodeDecodeError` from decoding the
file's bytes escapes and kills the program. -/
inductive PyFatal where
  | osError : PyFatal
  | unicodeDecodeError : PyFatal
deriving DecidableEq, Repr

/-- `PTOManager._load_data`: the parsed file if it exists, is readable
and parses; the default structure of lines 22–26 if the file is missing
or raises `JSONDecodeError` (reported to the user, not fatal); an
uncaught — fatal — exception if the existing file cannot be opened/read
or its bytes cannot be decoded, since only `JSONDecodeError` is caught. -/
def _load_data (f : FileState) : Except PyFatal Json :=
  match f with
  | .missing => .ok (encode defaultData)
  | .unreadable => .error .osError
  | .undecodable => .error .unicodeDecodeError
  | .corrupt _ => .ok (encode defaultData)
  | .content j => .ok j

/-! ### Spec-side input descriptions -/

/-- A `MM-DD-YY` string with zero-padded two-digit fields. -/
def mmddyy (m d y : Nat) : String :=
  String.mk (pad2 m ++ '-' :: (pad2 d ++ '-' :: pad2 y))

/-- An ISO `YYYY-MM-DD` string with zero-padded fields. -/
def isoOf (yr m d : Nat) : String :=
  String.mk (pad4 yr ++ '-' :: (pad2 m ++ '-' :: pad2 d))

/-- The request list is in ascending order of its canonical date keys. -/
def SortedReqs (l : List Request) : Prop := l.Pairwise reqLE

instance (l : List Request) : Decidable (SortedReqs l) :=
  inferInstanceAs (Decidable (l.Pairwise reqLE))

/-! ### Lemmas: digits and padded tokens -/

theorem digitChar_toNat (n : Nat) : (digitChar n).toNat = 48 + n % 10 := by
  have h : n % 10 < 10 := Nat.mod_lt _ (by decide)
  have key : ∀ k < 10, (Char.ofNat (48 + k)).toNat = 48 + k := by decide
  have := key (n % 10) h
  simpa [digitChar] using this

theorem isDigitC_digitChar (n : Nat) : isDigitC (digitChar n) = true := by
  have h : n % 10 < 10 := Nat.mod_lt _ (by decide)
  have key : ∀ k < 10, isDigitC (Char.ofNat (48 + k)) = true := by decide
  have := key (n % 10) h
  simpa [digitChar] using this

theorem digitChar_ne_dash (n : Nat) : digitChar n ≠ '-' := by
  have h : n % 10 < 10 := Nat.mod_lt _ (by decide)
  have key : ∀ k < 10, Char.ofNat (48 + k) ≠ '-' := by decide
  have := key (n % 10) h
  simpa [digitChar] using this

theorem dash_not_mem_pad2 (n : Nat) : '-' ∉ pad2 n := by
  simp only [pad2, List.mem_cons, List.not_mem_nil, or_false]
  exact fun h => h.elim (fun h1 => digitChar_ne_dash _ h1.symm)
    (fun h2 => digitChar_ne_dash _ h2.symm)

theorem dash_not_mem_pad4 (n : Nat) : '-' ∉ pad4 n := by
  simp only [pad4, List.mem_cons, List.not_mem_nil, or_false]
  intro h
  rcases h with h | h | h | h <;> exact digitChar_ne_dash _ h.symm

theorem pad2_all_digits (n : Nat) : (pad2 n).all isDigitC = true := by
  simp only [pad2, List.all_cons, List.all_nil, Bool.and_true, Bool.and_eq_true]
  exact ⟨isDigitC_digitChar _, isDigitC_digitChar _⟩

theorem pad4_all_digits (n : Nat) : (pad4 n).all isDigitC = true := by
  simp only [pad4, List.all_cons, List.all_nil, Bool.and_true, Bool.and_eq_true]
  exact ⟨isDigitC_digitChar _, isDigitC_digitChar _, isDigitC_digitChar _, isDigitC_digitChar _⟩

theorem tokVal_pad2 (n : Nat) (h : n ≤ 99) : tokVal (pad2 n) = n := by
  simp only [tokVal, pad2, List.foldl_cons, List.foldl_nil, digitChar_toNat]
  omega

theorem tokVal_pad4 (n : Nat) (h : n ≤ 9999) : tokVal (pad4 n) = n := by
  simp only [tokVal, pad4, List.foldl_cons, List.foldl_nil, digitChar_toNat]
  omega

theorem isNumTok_pad2 (n : Nat) : isNumTok (pad2 n) 2 = true := by
  have hlen : (pad2 n).length = 2 := rfl
  simp [isNumTok, hlen, pad2_all_digits]

/-! ### Lemmas: splitting at dashes -/

theorem splitDash_ne_nil (cs : List Char) : splitDash cs ≠ [] := by
  induction cs with
  | nil => simp [splitDash]
  | cons c cs ih =>
    simp only [splitDash]
    split
    · simp
    · match h : splitDash cs with
      | [] => exact absurd h ih
      | t :: ts => simp

theorem splitDash_no_dash (t : List Char) (h : '-' ∉ t) : splitDash t = [t] := by
  induction t with
  | nil => rfl
  | cons c cs ih =>
    have hc : c ≠ '-' := fun hc => h (hc ▸ List.mem_cons_self c cs)
    have hcs : '-' ∉ cs := fun hm => h (List.mem_cons_of_mem c hm)
    simp only [splitDash, if_neg hc, ih hcs]

theorem splitDash_append (t rest : List Char) (h : '-' ∉ t) :
    splitDash (t ++ '-' :: rest) = t :: splitDash rest := by
  induction t with
  | nil => simp [splitDash]
  | cons c cs ih =>
    have hc : c ≠ '-' := fun hc => h (hc ▸ List.mem_cons_self c cs)
    have hcs : '-' ∉ cs := fun hm => h (List.mem_cons_of_mem c hm)
    simp only [List.cons_append, splitDash, if_neg hc, List.append_eq, ih hcs]

/-! ### Lemmas: the code-point lexicographic order -/

theorem cmpL_eq_iff (a : List Char) : ∀ b, cmpL a b = .eq ↔ a = b := by
  induction a with
  | nil => intro b; cases b <;> simp [cmpL]
  | cons x as ih =>
    intro b
    cases b with
    | nil => simp [cmpL]
    | cons y bs =>
      by_cases h1 : x < y
      · have hne : x ≠ y := ne_of_lt h1
        simp [cmpL, h1, hne]
      · by_cases h2 : y < x
        · have hne : x ≠ y := (ne_of_lt h2).symm
          simp [cmpL, h1, h2, hne]
        · have hxy : x = y := le_antisymm (not_lt.mp h2) (not_lt.mp h1)
          simp [cmpL, h1, h2, ih, hxy]

theorem cmpL_gt_iff (a : List Char) : ∀ b, cmpL a b = .gt ↔ cmpL b a = .lt := by
  induction a with
  | nil => intro b; cases b <;> simp [cmpL]
  | cons x as ih =>
    intro b
    cases b with
    | nil => simp [cmpL]
    | cons y bs =>
      by_cases h1 : x < y
      · have h2 : ¬ y < x := asymm h1
        simp [cmpL, h1, h2]
      · by_cases h2 : y < x
        · simp [cmpL, h1, h2]
        · simp [cmpL, h1, h2, ih]

theorem cmpL_lt_trans (a : List Char) :
    ∀ b c, cmpL a b = .lt → cmpL b c = .lt → cmpL a c = .lt := by
  induction a with
  | nil =>
    intro b c h1 h2
    cases c with
    | nil =>
      cases b with
      | nil => simp [cmpL] at h1
      | cons y bs => simp [cmpL] at h2
    | cons z cs => simp [cmpL]
  | cons x as ih =>
    intro b c h1 h2
    cases b with
    | nil => simp [cmpL] at h1
    | cons y bs =>
      cases c with
      | nil => simp [cmpL] at h2
      | cons z cs =>
        simp only [cmpL] at h1 h2 ⊢
        by_cases hxy : x < y
        · by_cases hyz : y < z
          · simp [lt_trans hxy hyz]
          · by_cases hzy : z < y
            · simp [hyz, hzy] at h2
            · have hyz' : y = z := le_antisymm (not_lt.mp hzy) (not_lt.mp hyz)
              subst hyz'
              simp [hxy]
        · by_cases hyx : y < x
          · simp [hxy, hyx] at h1
          · have hxy' : x = y := le_antisymm (not_lt.mp hyx) (not_lt.mp hxy)
            subst hxy'
            simp only [hxy, if_neg, ite_self] at h1
            by_cases hxz : x < z
            · simp [hxz]
            · by_cases hzx : z < x
              · simp [hxz, hzx] at h2
              · have hxz' : x = z := le_antisymm (not_lt.mp hzx) (not_lt.mp hxz)
                subst hxz'
                simp only [hxz, if_neg, ite_self] at h2 ⊢
                simp only [lt_irrefl, if_false] at h1 h2 ⊢
                exact ih _ _ h1 h2

theorem cmpL_le_trans (a b c : List Char) (h1 : cmpL a b ≠ .gt) (h2 : cmpL b c ≠ .gt) :
    cmpL a c ≠ .gt := by
  cases hab : cmpL a b with
  | gt => exact absurd hab h1
  | eq =>
    have hab' : a = b := (cmpL_eq_iff a b).mp hab
    subst hab'
    exact h2
  | lt =>
    cases hbc : cmpL b c with
    | gt => exact absurd hbc h2
    | eq =>
      have hbc' : b = c := (cmpL_eq_iff b c).mp hbc
      subst hbc'
      simp [hab]
    | lt =>
      have := cmpL_lt_trans a b c hab hbc
      simp [this]

theorem cmpL_le_total (a b : List Char) : cmpL a b ≠ .gt ∨ cmpL b a ≠ .gt := by
  cases h : cmpL a b with
  | lt => left; simp [h]
  | eq => left; simp [h]
  | gt =>
    right
    have : cmpL b a = .lt := (cmpL_gt_iff a b).mp h
    simp [this]

instance : IsTrans Request reqLE := ⟨fun _ _ _ h1 h2 => cmpL_le_trans _ _ _ h1 h2⟩

instance : IsTotal Request reqLE := ⟨fun a b => cmpL_le_total _ _⟩

theorem sorted_sortReqs (l : List Request) : SortedReqs (sortReqs l) :=
  List.sorted_insertionSort reqLE l

theorem perm_sortReqs (l : List Request) : List.Perm (sortReqs l) l :=
  List.perm_insertionSort reqLE l

/-! ### Lemmas: hour sums and the lookup loops -/

theorem sumHours_sortReqs (l : List Request) : sumHours (sortReqs l) = sumHours l :=
  ((perm_sortReqs l).map Request.hours).sum_eq

theorem sumHours_append (l : List Request) (r : Request) :
    sumHours (l ++ [r]) = sumHours l + r.hours := by
  simp [sumHours]

theorem editScan_sum (target : String) (nd : Option String) (hb : Option Bool)
    (hn : Option String) :
    ∀ reqs l2 oh nh, editScan reqs target nd hb hn = some (l2, oh, nh) →
      sumHours l2 = sumHours reqs - oh + nh := by
  intro reqs
  induction reqs with
  | nil => intro l2 oh nh h; simp [editScan] at h
  | cons r rest ih =>
    intro l2 oh nh h
    by_cases hdd : r.date = target
    · simp only [editScan, if_pos hdd, Option.some.injEq, Prod.mk.injEq] at h
      obtain ⟨hl, ho, hh⟩ := h
      subst hl; subst ho; subst hh
      simp only [sumHours, List.map_cons, List.sum_cons] at *
      omega
    · simp only [editScan, if_neg hdd] at h
      cases heq : editScan rest target nd hb hn with
      | none => rw [heq] at h; simp at h
      | some p =>
        obtain ⟨l3, oh3, nh3⟩ := p
        rw [heq] at h
        simp only [Option.some.injEq, Prod.mk.injEq] at h
        obtain ⟨hl, ho, hh⟩ := h
        subst hl; subst ho; subst hh
        have hrec := ih l3 oh3 nh3 heq
        simp only [sumHours, List.map_cons, List.sum_cons] at *
        omega

theorem removeScan_sum (target : String) :
    ∀ reqs l2 h0, removeScan reqs target = some (l2, h0) →
      sumHours l2 = sumHours reqs - h0 := by
  intro reqs
  induction reqs with
  | nil => intro l2 h0 h; simp [removeScan] at h
  | cons r rest ih =>
    intro l2 h0 h
    by_cases hdd : r.date = target
    · simp only [removeScan, if_pos hdd, Option.some.injEq, Prod.mk.injEq] at h
      obtain ⟨hl, hh⟩ := h
      subst hl; subst hh
      simp only [sumHours, List.map_cons, List.sum_cons]
      omega
    · simp only [removeScan, if_neg hdd] at h
      cases heq : removeScan rest target with
      | none => rw [heq] at h; simp at h
      | some p =>
        obtain ⟨l3, h3⟩ := p
        rw [heq] at h
        simp only [Option.some.injEq, Prod.mk.injEq] at h
        obtain ⟨hl, hh⟩ := h
        subst hl; subst hh
        have hrec := ih l3 h3 heq
        simp only [sumHours, List.map_cons, List.sum_cons] at *
        omega

theorem removeScan_sublist (target : String) :
    ∀ reqs l2 h0, removeScan reqs target = some (l2, h0) → List.Sublist l2 reqs := by
  intro reqs
  induction reqs with
  | nil => intro l2 h0 h; simp [removeScan] at h
  | cons r rest ih =>
    intro l2 h0 h
    by_cases hdd : r.date = target
    · simp only [removeScan, if_pos hdd, Option.some.injEq, Prod.mk.injEq] at h
      obtain ⟨hl, _⟩ := h
      subst hl
      exact List.sublist_cons_self r rest
    · simp only [removeScan, if_neg hdd] at h
      cases heq : removeScan rest target with
      | none => rw [heq] at h; simp at h
      | some p =>
        obtain ⟨l3, h3⟩ := p
        rw [heq] at h
        simp only [Option.some.injEq, Prod.mk.injEq] at h
        obtain ⟨hl, _⟩ := h
        subst hl
        exact List.Sublist.cons₂ r (ih l3 h3 heq)

/-! ### Lemmas: the date functions -/

theorem validate_ne_empty (s t : String) (h : _validate_date s = some t) : t ≠ "" := by
  unfold _validate_date at h
  split at h
  · split at h
    · simp only [] at h
      split at h
      · injection h with h2
        intro hc
        rw [← h2] at hc
        have hdata := congrArg String.data hc
        simp [pad4] at hdata
      · exact absurd h (by simp)
    · exact absurd h (by simp)
  · exact absurd h (by simp)

theorem validate_mmddyy (m d y : Nat) (hm : m ≤ 99) (hd : d ≤ 99) (hy : y ≤ 99) :
    _validate_date (mmddyy m d y) =
      if 1 ≤ m ∧ m ≤ 12 ∧ 1 ≤ d ∧ d ≤ 31 ∧ d ≤ daysInMonth (pyYear y) m
      then some (isoOf (pyYear y) m d) else none := by
  unfold _validate_date mmddyy isoOf
  have hdata : (String.mk (pad2 m ++ '-' :: (pad2 d ++ '-' :: pad2 y))).data
      = pad2 m ++ '-' :: (pad2 d ++ '-' :: pad2 y) := rfl
  rw [hdata, splitDash_append _ _ (dash_not_mem_pad2 m),
      splitDash_append _ _ (dash_not_mem_pad2 d),
      splitDash_no_dash _ (dash_not_mem_pad2 y)]
  have hlen : ((pad2 y).length = 2) := rfl
  simp only [isNumTok_pad2, pad2_all_digits, hlen, decide_true_eq_true, Bool.and_self,
    Bool.true_and, Bool.and_true, if_true, tokVal_pad2 m hm, tokVal_pad2 d hd,
    tokVal_pad2 y hy]

theorem display_isoOf (yr m d : Nat) (h0 : 1 ≤ yr) (h9 : yr ≤ 9999) (h1 : 1 ≤ m)
    (h2 : m ≤ 12) (h3 : 1 ≤ d) (h4 : d ≤ 31) (h5 : d ≤ daysInMonth yr m) :
    _format_date_for_display (isoOf yr m d) =
      String.mk (pad2 m ++ '-' :: (pad2 d ++ '-' :: pad2 (yr % 100))) := by
  unfold _format_date_for_display isoOf
  have hdata : (String.mk (pad4 yr ++ '-' :: (pad2 m ++ '-' :: pad2 d))).data
      = pad4 yr ++ '-' :: (pad2 m ++ '-' :: pad2 d) := rfl
  rw [hdata, splitDash_append _ _ (dash_not_mem_pad4 yr),
      splitDash_append _ _ (dash_not_mem_pad2 m),
      splitDash_no_dash _ (dash_not_mem_pad2 d)]
  have hlen : ((pad4 yr).length = 4) := rfl
  simp only [isNumTok_pad2, pad4_all_digits, hlen, decide_true_eq_true, Bool.and_self,
    Bool.true_and, Bool.and_true, if_true, tokVal_pad4 yr h9,
    tokVal_pad2 m (le_trans h2 (by omega)), tokVal_pad2 d (le_trans h4 (by omega))]
  rw [if_pos ⟨h0, h1, h2, h3, h4, h5⟩]

/-! ### Lemmas: the running balance -/

theorem usedInv_applyOp (st : PTOData) (op : PTOOp)
    (h : st.used_pto_hours = sumHours st.pto_requests) :
    (applyOp st op).used_pto_hours = sumHours (applyOp st op).pto_requests := by
  cases op with
  | add d b n =>
    simp only [applyOp]
    unfold add_pto_request
    split
    · exact h
    · split
      · exact h
      · split
        · exact h
        · dsimp only
          rw [sumHours_sortReqs, sumHours_append, h]
  | edit d nd hb hn =>
    simp only [applyOp]
    unfold edit_pto_request
    split
    · exact h
    · split
      · exact h
      · split
        · exact h
        · split
          · exact h
          · rename_i hscan
            dsimp only
            rw [sumHours_sortReqs, editScan_sum _ _ _ _ _ _ _ _ hscan, h]
  | remove d =>
    simp only [applyOp]
    unfold remove_pto_request
    split
    · exact h
    · split
      · exact h
      · split
        · exact h
        · rename_i hscan
          dsimp only
          rw [removeScan_sum _ _ _ _ hscan, h]

/-! ### Lemmas: persistence round trip -/

theorem decodeReq_encodeReq (r : Request) : decodeReq (encodeReq r) = some r := rfl

theorem decodeReqs_map (rs : List Request) : decodeReqs (rs.map encodeReq) = some rs := by
  induction rs with
  | nil => rfl
  | cons r rest ih => simp [decodeReqs, decodeReq_encodeReq, ih]

/-! ### The claims -/

/-- C1: for every sequence of `add_pto_request`, `edit_pto_request` and
`remove_pto_request` operations applied to the default initial ledger, the
resulting `used_pto_hours` equals the sum of the `hours` fields of the
requests currently in `pto_requests`. -/
theorem C1_used_hours_sum_invariant (ops : List PTOOp) :
    (applyOps defaultData ops).used_pto_hours
      = sumHours (applyOps defaultData ops).pto_requests := by
  have main : ∀ (l : List PTOOp) (st : PTOData),
      st.used_pto_hours = sumHours st.pto_requests →
      (applyOps st l).used_pto_hours = sumHours (applyOps st l).pto_requests := by
    intro l
    induction l with
    | nil => intro st h; exact h
    | cons op rest ih => intro st h; exact ih _ (usedInv_applyOp st op h)
  exact main ops defaultData rfl

/-- C2: adding a request whose (normalized) date is already present fails
with the duplicate-date error and leaves the whole ledger unchanged,
without persisting. -/
theorem C2_duplicate_add_rejected (st : PTOData) (d note : String) (b : Bool) (nd : String)
    (h1 : _validate_date d = some nd) (h2 : hasDate st.pto_requests nd = true) :
    add_pto_request st d b note = ⟨st, some .duplicateDate, false⟩ := by
  unfold add_pto_request
  rw [h1]
  simp only [if_neg (validate_ne_empty d nd h1), if_pos h2]

theorem C2_duplicate_add_rejected_witness :
    (_validate_date "01-15-24" = some "2024-01-15" ∧
     hasDate [(⟨"2024-01-15", false, 8, ""⟩ : Request)] "2024-01-15" = true) ∧
    add_pto_request ⟨80, 8, [⟨"2024-01-15", false, 8, ""⟩]⟩ "01-15-24" false "" =
      ⟨⟨80, 8, [⟨"2024-01-15", false, 8, ""⟩]⟩, some .duplicateDate, false⟩ :=
  ⟨⟨by decide, by decide⟩,
   C2_duplicate_add_rejected ⟨80, 8, [⟨"2024-01-15", false, 8, ""⟩]⟩ "01-15-24" "" false
     "2024-01-15" (by decide) (by decide)⟩

/-- C3: after any of the four mutating operations applied to a ledger
whose request list is sorted, the request list is sorted in ascending
order of the canonical date keys. -/
theorem C3_sorted_after_mutation (st : PTOData) (d note : String) (b : Bool)
    (nd : Option String) (ob : Option Bool) (onote : Option String) (hrs : Int)
    (h : SortedReqs st.pto_requests) :
    SortedReqs (add_pto_request st d b note).data.pto_requests ∧
    SortedReqs (edit_pto_request st d nd ob onote).data.pto_requests ∧
    SortedReqs (remove_pto_request st d).data.pto_requests ∧
    SortedReqs (set_yearly_pto_hours st hrs).data.pto_requests := by
  refine ⟨?_, ?_, ?_, h⟩
  · unfold add_pto_request
    split
    · exact h
    · split
      · exact h
      · split
        · exact h
        · exact sorted_sortReqs _
  · unfold edit_pto_request
    split
    · exact h
    · split
      · exact h
      · split
        · exact h
        · split
          · exact h
          · exact sorted_sortReqs _
  · unfold remove_pto_request
    split
    · exact h
    · split
      · exact h
      · split
        · exact h
        · rename_i hscan
          exact List.Pairwise.sublist (removeScan_sublist _ _ _ _ hscan) h

theorem C3_sorted_after_mutation_witness :
    SortedReqs ((⟨0, 0, []⟩ : PTOData).pto_requests) ∧
    (SortedReqs (add_pto_request ⟨0, 0, []⟩ "01-15-24" false "").data.pto_requests ∧
     SortedReqs (edit_pto_request ⟨0, 0, []⟩ "01-15-24" none none none).data.pto_requests ∧
     SortedReqs (remove_pto_request ⟨0, 0, []⟩ "01-15-24").data.pto_requests ∧
     SortedReqs (set_yearly_pto_hours ⟨0, 0, []⟩ 80).data.pto_requests) :=
  ⟨by decide,
   C3_sorted_after_mutation ⟨0, 0, []⟩ "01-15-24" "" false none none none 80 (by decide)⟩

/-- C4: saving the document with `_save_data` and then loading it with
`_load_data` succeeds and yields an identical ledger state. -/
theorem C4_save_load_roundtrip (st : PTOData) :
    _load_data (FileState.content (_save_data st)) = Except.ok (_save_data st) ∧
    decode (_save_data st) = some st := by
  refine ⟨rfl, ?_⟩
  obtain ⟨y, u, rs⟩ := st
  show decode (encode ⟨y, u, rs⟩) = some ⟨y, u, rs⟩
  simp [decode, encode, getField, decodeReqs_map]

/-- C5: the example scenario: from allowance 80, used 0, no requests:
a full-day add for `"01-15-24"` gives used 8 and one request; a second
add for the same date fails and used stays 8; an edit to half-day gives
used 4; a remove gives used 0 and zero requests. -/
theorem C5_example_scenario :
    (let s0 : PTOData := ⟨80, 0, []⟩
     let r1 := add_pto_request s0 "01-15-24" false ""
     let r2 := add_pto_request r1.data "01-15-24" false ""
     let r3 := edit_pto_request r2.data "01-15-24" none (some true) none
     let r4 := remove_pto_request r3.data "01-15-24"
     r1.err = none ∧ r1.data.used_pto_hours = 8 ∧ r1.data.pto_requests.length = 1 ∧
     r2.err = some .duplicateDate ∧ r2.data.used_pto_hours = 8 ∧
     r3.err = none ∧ r3.data.used_pto_hours = 4 ∧
     r4.err = none ∧ r4.data.used_pto_hours = 0 ∧ r4.data.pto_requests = []) := by
  decide

/-- C6: a date string `_validate_date` cannot parse makes `add_pto_request`
and `edit_pto_request` fail with the invalid-date error and leave the
ledger untouched, unpersisted — both as the lookup date and (for edit,
when nonempty, since an empty `new_date` is falsy and skipped) as the new
date. -/
theorem C6_invalid_date_noop (st : PTOData) (d note : String) (b : Bool)
    (nd : Option String) (ob : Option Bool) (onote : Option String)
    (h : _validate_date d = none) :
    add_pto_request st d b note = ⟨st, some .invalidDate, false⟩ ∧
    edit_pto_request st d nd ob onote = ⟨st, some .invalidDate, false⟩ ∧
    (d ≠ "" → ∀ lookup : String,
      edit_pto_request st lookup (some d) ob onote = ⟨st, some .invalidDate, false⟩) := by
  refine ⟨?_, ?_, ?_⟩
  · unfold add_pto_request
    rw [h]
  · unfold edit_pto_request
    rw [h]
  · intro hne lookup
    unfold edit_pto_request
    cases hv : _validate_date lookup with
    | none => rfl
    | some x =>
      have hx : x ≠ "" := validate_ne_empty lookup x hv
      simp only [if_neg hx, if_neg hne, h]

theorem C6_invalid_date_noop_witness :
    _validate_date "13-45-99" = none ∧
    (add_pto_request ⟨0, 0, []⟩ "13-45-99" false "" = ⟨⟨0, 0, []⟩, some .invalidDate, false⟩ ∧
     edit_pto_request ⟨0, 0, []⟩ "13-45-99" none none none =
       ⟨⟨0, 0, []⟩, some .invalidDate, false⟩ ∧
     (("13-45-99" : String) ≠ "" → ∀ lookup : String,
       edit_pto_request ⟨0, 0, []⟩ lookup (some "13-45-99") none none =
         ⟨⟨0, 0, []⟩, some .invalidDate, false⟩)) :=
  ⟨by decide, C6_invalid_date_noop ⟨0, 0, []⟩ "13-45-99" "" false none none none (by decide)⟩

/-- C7 counterexample: the claim's own example of the day/month/year
format, `"15-01-24"` for 15 January 2024, is rejected by
`_validate_date` (the code parses month first: `"%m-%d-%y"`). -/
theorem C7_day_month_year_rejected : _validate_date "15-01-24" = none := by decide

/-- C7 (amended): date normalization accepts every date string in the
two-digit-year month/day/year (`MM-DD-YY`) format naming a real calendar
date, and stores the canonical sortable ISO form `YYYY-MM-DD`. -/
theorem C7_amended_month_day_year (m d y : Nat) (h1 : 1 ≤ m) (h2 : m ≤ 12) (h3 : 1 ≤ d)
    (h4 : d ≤ 31) (h5 : y ≤ 99) (h6 : d ≤ daysInMonth (pyYear y) m) :
    _validate_date (mmddyy m d y) = some (isoOf (pyYear y) m d) := by
  rw [validate_mmddyy m d y (by omega) (by omega) h5, if_pos ⟨h1, h2, h3, h4, h6⟩]

theorem C7_amended_month_day_year_witness :
    (mmddyy 1 15 24 = "01-15-24" ∧ isoOf (pyYear 24) 1 15 = "2024-01-15") ∧
    (1 ≤ 1 ∧ 1 ≤ 12 ∧ 1 ≤ 15 ∧ 15 ≤ 31 ∧ 24 ≤ 99 ∧ 15 ≤ daysInMonth (pyYear 24) 1) ∧
    _validate_date (mmddyy 1 15 24) = some (isoOf (pyYear 24) 1 15) :=
  ⟨⟨by decide, by decide⟩, ⟨by decide, by decide, by decide, by decide, by decide, by decide⟩,
   C7_amended_month_day_year 1 15 24 (by decide) (by decide) (by decide) (by decide)
     (by decide) (by decide)⟩

/-- C8 counterexample: the claim also covers an existing but unreadable
file and asserts the failure is not fatal, yet the `try/except` catches
only `json.JSONDecodeError`: on an unreadable file `_load_data` lets the
`OSError` escape — it does not return the default document — and the
program dies (likewise a `UnicodeDecodeError` on undecodable bytes). -/
theorem C8_unreadable_fatal_counterexample :
    _load_data FileState.unreadable = Except.error PyFatal.osError ∧
    _load_data FileState.unreadable ≠ Except.ok (encode defaultData) ∧
    _load_data FileState.undecodable = Except.error PyFatal.unicodeDecodeError :=
  ⟨rfl, fun h => Except.noConfusion h, rfl⟩

/-- C8 (amended): for every missing or unparseable (`JSONDecodeError`)
storage file, `_load_data` returns the default empty document —
allowance 0, used hours 0, empty request list — and that failure is not
fatal; an existing file that cannot be read or decoded instead raises an
uncaught, fatal error. -/
theorem C8_amended_missing_or_unparseable_defaults :
    _load_data FileState.missing = Except.ok (encode defaultData) ∧
    (∀ raw : String, _load_data (FileState.corrupt raw) = Except.ok (encode defaultData)) ∧
    decode (encode defaultData) = some ⟨0, 0, []⟩ :=
  ⟨rfl, fun _ => rfl, by decide⟩

/-- C9 counterexample: `"1-15-24"` is accepted by `_validate_date` (the
`%m` pattern also matches a single digit), but formatting the stored date
back yields the padded `"01-15-24"`, not the original input. -/
theorem C9_roundtrip_counterexample :
    _validate_date "1-15-24" = some "2024-01-15" ∧
    _format_date_for_display "2024-01-15" = "01-15-24" ∧
    ("01-15-24" : String) ≠ "1-15-24" := by
  decide

/-- C9 (amended): for every accepted input in fully zero-padded
`MM-DD-YY` form, formatting the stored canonical date back for display
returns exactly the original input string. -/
theorem C9_amended_padded_roundtrip (m d y : Nat) (hm : m ≤ 99) (hd : d ≤ 99) (hy : y ≤ 99)
    (iso : String) (hv : _validate_date (mmddyy m d y) = some iso) :
    _format_date_for_display iso = mmddyy m d y := by
  rw [validate_mmddyy m d y hm hd hy] at hv
  by_cases hc : 1 ≤ m ∧ m ≤ 12 ∧ 1 ≤ d ∧ d ≤ 31 ∧ d ≤ daysInMonth (pyYear y) m
  · rw [if_pos hc] at hv
    injection hv with hv2
    subst hv2
    obtain ⟨h1, h2, h3, h4, h6⟩ := hc
    have hyr0 : 1 ≤ pyYear y := by unfold pyYear; split <;> omega
    have hyr9 : pyYear y ≤ 9999 := by unfold pyYear; split <;> omega
    rw [display_isoOf (pyYear y) m d hyr0 hyr9 h1 h2 h3 h4 h6]
    have hmod : pyYear y % 100 = y := by unfold pyYear; split <;> omega
    rw [hmod]
    rfl
  · rw [if_neg hc] at hv
    exact absurd hv (by simp)

theorem C9_amended_padded_roundtrip_witness :
    (1 ≤ 99 ∧ 15 ≤ 99 ∧ 24 ≤ 99 ∧ _validate_date (mmddyy 1 15 24) = some "2024-01-15") ∧
    _format_date_for_display "2024-01-15" = mmddyy 1 15 24 :=
  ⟨⟨by decide, by decide, by decide, by decide⟩,
   C9_amended_padded_roundtrip 1 15 24 (by decide) (by decide) (by decide) "2024-01-15"
     (by decide)⟩

/-- C10: `edit_pto_request` never checks the new date against existing
requests, so editing a request on one date to another, already occupied,
date succeeds and produces two requests with the same canonical date. -/
theorem C10_edit_creates_duplicate_dates :
    (let st : PTOData := ⟨80, 16, [⟨"2024-01-15", false, 8, "a"⟩,
                                   ⟨"2024-01-16", false, 8, "b"⟩]⟩
     let res := edit_pto_request st "01-15-24" (some "01-16-24") none none
     ("2024-01-15" : String) ≠ "2024-01-16" ∧
     res.err = none ∧ res.saved = true ∧
     res.data.pto_requests.map Request.date = ["2024-01-16", "2024-01-16"]) := by
  decide
